import Mathlib

/-!
Verification of the admission-control core of the roast-my-code service:
budget ledger (`app/budget.py`), three-tier rate limiter (`app/rate_limit.py`),
input validation (`app/security.py`) and the gate ordering of the request handler
(`app/main.py`).

Modelling conventions:
* SQLite tables become Lean lists of row structures; the SQL upserts become
  structurally recursive first-match updates (the key of each table is a
  primary key, so at most one row matches).
* SQLite REAL money amounts (`spent_cents`, `cost_cents`) are modelled as
  exact integer cents (`Int`): every money claim is an order/additive
  property, and the spec states its boundaries in integer-cent arithmetic.
* ISO date strings (`YYYY-MM-DD`), which SQLite compares lexicographically in
  chronological order, are modelled as `Int` day numbers with the same order.
* `get_config(key, default)` string parsing is abstracted: `AppConfig` holds
  the parsed value of each configuration key, with the source defaults.
* The fallible division of Python is `pydiv : Int → Int → Option Int`; a function
  that can raise `ZeroDivisionError` is `Option`-valued.
* The external model call (`roaster.roast_code`) and the SHA-256 hex digest
  (`hashlib.sha256(...).hexdigest()`) are external collaborators, passed in
  as parameters.
-/

/-- Parsed configuration values read through `get_config(key, default)`;
defaults are the fallback strings from the source. -/
structure AppConfig where
  monthly_budget_cents : Int := 2000
  cost_per_roast_cents : Int := 1
  budget_warning_threshold : Int := 80
  daily_roasts_per_session : Int := 10
  daily_roasts_per_ip : Int := 30
  daily_roasts_global : Int := 500
  enable_roasting : String := "true"
  max_input_chars : Int := 15000
  max_input_lines : Int := 500
deriving DecidableEq, Repr

/-- One row of the `monthly_budget` table (`month` is the primary key). -/
structure MonthRow where
  month : String
  spent_cents : Int
  roast_count : Int
deriving DecidableEq, Repr

/-- The `monthly_budget` table. -/
abbrev MonthlyBudget := List MonthRow

/-- One row of the `daily_usage` table (`(date, identity)` is the primary key). -/
structure UsageRow where
  date : Int
  identity : String
  count : Int
deriving DecidableEq, Repr

/-- The `daily_usage` table. -/
abbrev DailyUsage := List UsageRow

/-- `SELECT spent_cents FROM monthly_budget WHERE month = ?`, defaulting to 0
when no row exists (`budget.get_month_spend`). -/
def get_month_spend : MonthlyBudget → String → Int
  | [], _ => 0
  | r :: rest, m => if r.month = m then r.spent_cents else get_month_spend rest m

/-- `SELECT roast_count FROM monthly_budget WHERE month = ?`, defaulting to 0
when no row exists (`budget.get_month_roast_count`). -/
def get_month_roast_count : MonthlyBudget → String → Int
  | [], _ => 0
  | r :: rest, m => if r.month = m then r.roast_count else get_month_roast_count rest m

/-- `budget.record_cost`: atomic upsert on `monthly_budget` — insert
`(month, cost, 1)` on a fresh month, else add the cost and increment the
count in place. -/
def record_cost : MonthlyBudget → String → Int → MonthlyBudget
  | [], m, c => [⟨m, c, 1⟩]
  | r :: rest, m, c =>
      if r.month = m then ⟨r.month, r.spent_cents + c, r.roast_count + 1⟩ :: rest
      else r :: record_cost rest m c

/-- Python division, which raises on a zero divisor (the quotient itself only
feeds the log-only warning, so integer division stands in for float division). -/
def pydiv (a b : Int) : Option Int := if b = 0 then none else some (a / b)

/-- The user-facing denial message of `check_budget`. -/
def budget_deny_msg : String := "The roast machine is cooling down. Check back next month."

/-- `budget.check_budget`: deny when `spend >= limit`, deny when
`spend + estimated_next > limit`, otherwise evaluate the log-only warning
threshold (its division guarded by `budget_limit > 0`) and allow.
`none` models an uncaught `ZeroDivisionError`. -/
def check_budget (cfg : AppConfig) (mb : MonthlyBudget) (month : String) :
    Option (Bool × String) :=
  let budget_limit := cfg.monthly_budget_cents
  let current_spend := get_month_spend mb month
  if budget_limit ≤ current_spend then some (false, budget_deny_msg)
  else
    let estimated_next := cfg.cost_per_roast_cents
    if budget_limit < current_spend + estimated_next then some (false, budget_deny_msg)
    else
      -- warning threshold check: log-only, but its division must not raise;
      -- the conjunction short-circuits, so the division runs only when
      -- budget_limit > 0
      match (if 0 < budget_limit then pydiv current_spend budget_limit else some 0) with
      | none => none
      | some _pct => some (true, "ok")

/-- `SELECT COALESCE(SUM(count), 0) FROM daily_usage WHERE date = ? AND identity = ?`. -/
def usage_sum : DailyUsage → Int → String → Int
  | [], _, _ => 0
  | r :: rest, d, i =>
      (if r.date = d ∧ r.identity = i then r.count else 0) + usage_sum rest d i

/-- `SELECT COALESCE(SUM(count), 0) FROM daily_usage WHERE date = ?`. -/
def usage_sum_date : DailyUsage → Int → Int
  | [], _ => 0
  | r :: rest, d => (if r.date = d then r.count else 0) + usage_sum_date rest d

/-- `INSERT INTO daily_usage (date, identity, count) VALUES (?, ?, 1)
ON CONFLICT (date, identity) DO UPDATE SET count = count + 1`. -/
def upsert_usage : DailyUsage → Int → String → DailyUsage
  | [], d, i => [⟨d, i, 1⟩]
  | r :: rest, d, i =>
      if r.date = d ∧ r.identity = i then { r with count := r.count + 1 } :: rest
      else r :: upsert_usage rest d i

/-- `rate_limit.record_usage`: upsert both the session-tagged and the
ip-tagged counter for today; the session identity falls back to the IP hash
when the session store holds no `session_id`. -/
def record_usage (du : DailyUsage) (today : Int) (sess : Option String)
    (ip_hash : String) : DailyUsage :=
  let session_id := sess.getD ip_hash
  upsert_usage (upsert_usage du today ("session:" ++ session_id)) today ("ip:" ++ ip_hash)

/-- The session-tier denial message of `check_rate_limit`, embedding the
configured limit and the hours remaining until midnight. -/
def session_deny_msg (limit remaining_hours : Int) : String :=
  "Easy there, glutton for punishment. You\x27ve used all " ++ toString limit ++
    " roasts for today. Resets in ~" ++ toString remaining_hours ++ "h."

/-- The IP-tier denial message of `check_rate_limit`. -/
def ip_deny_msg : String := "This network has hit its daily limit. Try again tomorrow."

/-- The global-tier denial message of `check_rate_limit`. -/
def global_deny_msg : String :=
  "The roast machine is at capacity for today. Check back tomorrow."

/-- `rate_limit.check_rate_limit`: session tier, then IP ceiling, then global
cap, short-circuiting at the first tier whose summed count reaches its limit.
`hour` is `datetime.now().hour`. -/
def check_rate_limit (cfg : AppConfig) (du : DailyUsage) (today : Int)
    (sess : Option String) (ip_hash : String) (hour : Int) : Bool × String :=
  let session_id := sess.getD ip_hash
  let session_count := usage_sum du today ("session:" ++ session_id)
  if cfg.daily_roasts_per_session ≤ session_count then
    (false, session_deny_msg cfg.daily_roasts_per_session (24 - hour))
  else
    let ip_count := usage_sum du today ("ip:" ++ ip_hash)
    if cfg.daily_roasts_per_ip ≤ ip_count then (false, ip_deny_msg)
    else
      let global_count := usage_sum_date du today
      if cfg.daily_roasts_global ≤ global_count then (false, global_deny_msg)
      else (true, "ok")

/-- `rate_limit.get_remaining_roasts`: `max(0, limit - session_count_today)`,
with the same session-identity fallback as the other two operations. -/
def get_remaining_roasts (cfg : AppConfig) (du : DailyUsage) (today : Int)
    (sess : Option String) (ip_hash : String) : Int :=
  let session_id := sess.getD ip_hash
  let used := usage_sum du today ("session:" ++ session_id)
  max 0 (cfg.daily_roasts_per_session - used)

/-- `rate_limit.prune_old_usage`: `DELETE FROM daily_usage WHERE date < ?`
with cutoff `today - days_to_keep`. -/
def prune_old_usage (du : DailyUsage) (today : Int) (days_to_keep : Int) : DailyUsage :=
  let cutoff := today - days_to_keep
  du.filter (fun r => !decide (r.date < cutoff))

/-- Network information of one client request (`flask.request`). -/
structure IpRequest where
  access_route : List String
  remote_addr : Option String
deriving DecidableEq, Repr

/-- Address resolution of `rate_limit.get_ip_hash`: with a positive trusted
proxy count and a nonempty forwarded chain, pick the entry at index
`max(0, chain_length - trusted_proxies)`; otherwise the direct peer address,
defaulting to localhost. -/
def resolve_client_ip (trusted_proxies : Int) (req : IpRequest) : String :=
  if 0 < trusted_proxies ∧ req.access_route ≠ [] then
    let idx := max 0 ((req.access_route.length : Int) - trusted_proxies)
    req.access_route.getD idx.toNat "127.0.0.1"
  else
    req.remote_addr.getD "127.0.0.1"

/-- `rate_limit.get_ip_hash`: first 16 hex characters of the SHA-256 hex
digest of the resolved client address. The digest function itself is an
external collaborator passed as `sha256_hex`. -/
def get_ip_hash (sha256_hex : String → String) (trusted_proxies : Int)
    (req : IpRequest) : String :=
  (sha256_hex (resolve_client_ip trusted_proxies req)).take 16

/-- Python `str.strip()`: drop leading and trailing whitespace. Written with
structural list recursion so concrete instances evaluate in the kernel. -/
def py_strip (s : String) : String :=
  ⟨((s.data.dropWhile Char.isWhitespace).reverse.dropWhile Char.isWhitespace).reverse⟩

/-- Python `len(s.split(sep))` for a single-character separator: one more than
the number of occurrences of the separator. -/
def py_split_count (sep : Char) (s : String) : Nat :=
  s.data.countP (fun c => c == sep) + 1

/-- `security.validate_input`: reject empty/whitespace input, oversize
character counts and oversize line counts, in that order. -/
def validate_input (cfg : AppConfig) (code : String) : Bool × String :=
  if code = "" ∨ py_strip code = "" then
    (false, "Paste some code first. We can\x27t roast nothing.")
  else if cfg.max_input_chars < (code.length : Int) then
    (false, "Too long (" ++ toString code.length ++ " chars). Max is " ++
      toString cfg.max_input_chars ++ ".")
  else
    let line_count := py_split_count (Char.ofNat 10) code
    if cfg.max_input_lines < (line_count : Int) then
      (false, "Too many lines (" ++ toString line_count ++ "). Max is " ++
        toString cfg.max_input_lines ++ ". Paste the worst part.")
    else (true, "")

/-- The successful result dictionary of `roaster.roast_code`. -/
structure RoastResult where
  roast : String
  input_tokens : Int
  output_tokens : Int
  cost_cents : Int
  model : String
  language : String
  score : Option Int
deriving DecidableEq, Repr

/-- The form fields and session data of one `/roast` POST request. -/
structure RoastRequest where
  code : String
  mode : String
  severity : String
  is_public : Bool
  sess : Option String
deriving DecidableEq, Repr

/-- One row of the `roast_log` table, as inserted by `submit_roast`. -/
structure LogRow where
  session_id : Option String
  ip_hash : String
  input_chars : Int
  input_lines : Int
  input_tokens_actual : Int
  output_tokens_actual : Int
  cost_cents : Int
  model : String
  mode : String
  severity : String
  language_detected : String
  share_id : String
  is_public : Int
  roast_score : Option Int
  roast_content : String
  code_content : Option String
deriving DecidableEq, Repr

/-- The persistent state touched by `submit_roast`. -/
structure AppState where
  monthly_budget : MonthlyBudget
  daily_usage : DailyUsage
  roast_log : List LogRow
deriving DecidableEq, Repr

/-- The terminal outcome of one `submit_roast` request, one constructor per
distinct user-facing response. -/
inductive SubmitOutcome
  | killSwitch (msg : String)
  | invalidInput (msg : String)
  | budgetDenied (msg : String)
  | rateLimited (msg : String)
  | modelFailed (msg : String)
  | success (share_id : String)
deriving DecidableEq, Repr

/-- Externally visible effects of one `submit_roast` request, in order. -/
inductive Effect
  | modelCall
  | insertLog
  | recordCost (cost : Int)
  | recordUsage
deriving DecidableEq, Repr

/-- Kill-switch message of `submit_roast`. -/
def offline_msg : String := "The roast machine is currently offline. Check back later."

/-- Generic retry-later message flashed when the model call raises. -/
def model_fail_msg : String :=
  "Claude is having a moment. Your code was SO bad it broke the reviewer. (Just kidding — try again in a minute.)"

/-- The `roast_log` row inserted by `submit_roast` on model-call success. -/
def mk_log_row (req : RoastRequest) (ip_hash mode severity : String)
    (result : RoastResult) (share_id : String) : LogRow :=
  { session_id := req.sess
    ip_hash := ip_hash
    input_chars := (req.code.length : Int)
    input_lines := (py_split_count (Char.ofNat 10) req.code : Int)
    input_tokens_actual := result.input_tokens
    output_tokens_actual := result.output_tokens
    cost_cents := result.cost_cents
    model := result.model
    mode := mode
    severity := severity
    language_detected := result.language
    share_id := share_id
    is_public := if req.is_public then 1 else 0
    roast_score := result.score
    roast_content := result.roast
    code_content := if req.is_public then some req.code else none }

/-- Mode normalisation at the top of `submit_roast`: anything outside the
closed set falls back to `"roast"`. -/
def normalize_mode (mode : String) : String :=
  if mode = "roast" ∨ mode = "waldorf" ∨ mode = "serious" then mode else "roast"

/-- Severity normalisation at the top of `submit_roast`: anything outside the
closed set falls back to `"normal"`. -/
def normalize_severity (severity : String) : String :=
  if severity = "gentle" ∨ severity = "normal" ∨ severity = "brutal" ∨
      severity = "unhinged"
    then severity else "normal"

/-- `main.submit_roast`: normalise mode/severity, then apply the four gates in
order (kill switch, input validation, budget, rate limit), short-circuiting at
the first failure; only when all pass is the model called (`model_call` stands
for the outcome of `roaster.roast_code`). On success: insert the log row, then
`record_cost` only when the actual cost is positive, then `record_usage`.
`none` models an uncaught exception out of `check_budget`. -/
def submit_roast (cfg : AppConfig) (st : AppState) (req : RoastRequest)
    (ip_hash : String) (month : String) (today : Int) (hour : Int)
    (model_call : Except String RoastResult) (share_id : String) :
    Option (SubmitOutcome × AppState × List Effect) :=
  let mode := normalize_mode req.mode
  let severity := normalize_severity req.severity
  if cfg.enable_roasting ≠ "true" then some (.killSwitch offline_msg, st, [])
  else
    match validate_input cfg req.code with
    | (false, error_msg) => some (.invalidInput error_msg, st, [])
    | (true, _) =>
      match check_budget cfg st.monthly_budget month with
      | none => none
      | some (false, budget_msg) => some (.budgetDenied budget_msg, st, [])
      | some (true, _) =>
        match check_rate_limit cfg st.daily_usage today req.sess ip_hash hour with
        | (false, rate_msg) => some (.rateLimited rate_msg, st, [])
        | (true, _) =>
          match model_call with
          | .error _ => some (.modelFailed model_fail_msg, st, [.modelCall])
          | .ok result =>
            let st1 : AppState :=
              { st with roast_log :=
                  st.roast_log ++ [mk_log_row req ip_hash mode severity result share_id] }
            let stepCost : AppState × List Effect :=
              if 0 < result.cost_cents then
                ({ st1 with monthly_budget := record_cost st1.monthly_budget month result.cost_cents },
                  [.recordCost result.cost_cents])
              else (st1, [])
            let st3 : AppState :=
              { stepCost.1 with daily_usage := record_usage stepCost.1.daily_usage today req.sess ip_hash }
            some (.success share_id, st3,
              [.modelCall, .insertLog] ++ stepCost.2 ++ [.recordUsage])

/-- The effect trace of a `submit_roast` result. -/
def out_effects : Option (SubmitOutcome × AppState × List Effect) → List Effect
  | some (_, _, effs) => effs
  | none => []

/-- N successive `record_usage` calls by the same visitor on the same day
(used to state the counter-evolution claims). -/
def iterate_record_usage : Nat → DailyUsage → Int → Option String → String → DailyUsage
  | 0, du, _, _, _ => du
  | n + 1, du, today, sess, ip_hash =>
      iterate_record_usage n (record_usage du today sess ip_hash) today sess ip_hash

theorem get_month_spend_nil (m : String) : get_month_spend [] m = 0 := rfl

theorem get_month_spend_record (mb : MonthlyBudget) (m : String) (c : Int) :
    get_month_spend (record_cost mb m c) m = get_month_spend mb m + c := by
  induction mb with
  | nil => simp [record_cost, get_month_spend]
  | cons r rest ih =>
      by_cases h : r.month = m
      · simp [record_cost, get_month_spend, h]
      · simp [record_cost, get_month_spend, h, ih]

theorem get_month_roast_count_record (mb : MonthlyBudget) (m : String) (c : Int) :
    get_month_roast_count (record_cost mb m c) m = get_month_roast_count mb m + 1 := by
  induction mb with
  | nil => simp [record_cost, get_month_roast_count]
  | cons r rest ih =>
      by_cases h : r.month = m
      · simp [record_cost, get_month_roast_count, h]
      · simp [record_cost, get_month_roast_count, h, ih]

/-- C1: `check_budget` denies exactly when `spend >= limit` or
`spend + cost_per_roast_cents > limit`, and allows in every other case. -/
theorem check_budget_deny_iff (cfg : AppConfig) (mb : MonthlyBudget) (month : String) :
    ((check_budget cfg mb month).map Prod.fst = some false ↔
      cfg.monthly_budget_cents ≤ get_month_spend mb month ∨
      cfg.monthly_budget_cents < get_month_spend mb month + cfg.cost_per_roast_cents) ∧
    ((check_budget cfg mb month).map Prod.fst = some true ↔
      get_month_spend mb month < cfg.monthly_budget_cents ∧
      get_month_spend mb month + cfg.cost_per_roast_cents ≤ cfg.monthly_budget_cents) := by
  simp only [check_budget]
  by_cases h1 : cfg.monthly_budget_cents ≤ get_month_spend mb month
  · simp [h1]
  · by_cases h2 : cfg.monthly_budget_cents <
        get_month_spend mb month + cfg.cost_per_roast_cents
    · simp [h1, h2]
    · by_cases h3 : 0 < cfg.monthly_budget_cents
      · simp [h1, h2, h3, pydiv, ne_of_gt h3, lt_of_not_le h1, le_of_not_lt h2]
      · simp [h1, h2, h3, lt_of_not_le h1, le_of_not_lt h2]

/-- C1 witness: at the spec boundary `limit = 10`, `spend = 9`, `cost = 1`
the gate allows; at `spend = 10` it denies. -/
theorem check_budget_deny_iff_boundary :
    (check_budget { monthly_budget_cents := 10 } [⟨"2026-10", 9, 9⟩] "2026-10").map Prod.fst
      = some true ∧
    (check_budget { monthly_budget_cents := 10 } [⟨"2026-10", 10, 10⟩] "2026-10").map Prod.fst
      = some false :=
  ⟨(check_budget_deny_iff { monthly_budget_cents := 10 } [⟨"2026-10", 9, 9⟩] "2026-10").2.mpr
      (by constructor <;> decide),
   (check_budget_deny_iff { monthly_budget_cents := 10 } [⟨"2026-10", 10, 10⟩] "2026-10").1.mpr
      (Or.inl (by decide))⟩

/-- C6: `check_budget` never raises — in particular not when the limit is 0,
where the guarded warning-percentage division is skipped — and with limit 0
and nonnegative spend it still returns a deny decision. -/
theorem check_budget_zero_limit_safe (cfg : AppConfig) (mb : MonthlyBudget) (month : String) :
    (check_budget cfg mb month).isSome = true ∧
    (cfg.monthly_budget_cents = 0 → 0 ≤ get_month_spend mb month →
      check_budget cfg mb month = some (false, budget_deny_msg)) := by
  constructor
  · simp only [check_budget]
    by_cases h1 : cfg.monthly_budget_cents ≤ get_month_spend mb month
    · simp [h1]
    · by_cases h2 : cfg.monthly_budget_cents <
          get_month_spend mb month + cfg.cost_per_roast_cents
      · simp [h1, h2]
      · by_cases h3 : 0 < cfg.monthly_budget_cents
        · simp [h1, h2, h3, pydiv, ne_of_gt h3]
        · simp [h1, h2, h3]
  · intro h0 hs
    have hle : cfg.monthly_budget_cents ≤ get_month_spend mb month := by
      rw [h0]; exact hs
    simp [check_budget, hle]

/-- C6 witness: with the configured limit set to 0 and an empty ledger,
`check_budget` evaluates to a deny decision rather than raising. -/
theorem check_budget_zero_limit_safe_ex :
    check_budget { monthly_budget_cents := 0 } [] "2026-10" = some (false, budget_deny_msg) :=
  (check_budget_zero_limit_safe { monthly_budget_cents := 0 } [] "2026-10").2 rfl (by decide)

theorem session_ne_ip_identity (x y : String) : "session:" ++ x ≠ "ip:" ++ y := by
  intro h
  have hd := congrArg String.data h
  simp [String.append] at hd

/-- C2: `check_rate_limit` evaluates session tier first (its denial message is
returned without consulting the IP or global sums), then the IP tier, then the
global tier, and allows exactly when all three sums are below their limits. -/
theorem check_rate_limit_tiers (cfg : AppConfig) (du : DailyUsage) (today : Int)
    (sess : Option String) (ip_hash : String) (hour : Int) :
    (cfg.daily_roasts_per_session ≤ usage_sum du today ("session:" ++ sess.getD ip_hash) →
      check_rate_limit cfg du today sess ip_hash hour =
        (false, session_deny_msg cfg.daily_roasts_per_session (24 - hour))) ∧
    (usage_sum du today ("session:" ++ sess.getD ip_hash) < cfg.daily_roasts_per_session →
      cfg.daily_roasts_per_ip ≤ usage_sum du today ("ip:" ++ ip_hash) →
      check_rate_limit cfg du today sess ip_hash hour = (false, ip_deny_msg)) ∧
    (usage_sum du today ("session:" ++ sess.getD ip_hash) < cfg.daily_roasts_per_session →
      usage_sum du today ("ip:" ++ ip_hash) < cfg.daily_roasts_per_ip →
      cfg.daily_roasts_global ≤ usage_sum_date du today →
      check_rate_limit cfg du today sess ip_hash hour = (false, global_deny_msg)) ∧
    ((check_rate_limit cfg du today sess ip_hash hour).1 = true ↔
      usage_sum du today ("session:" ++ sess.getD ip_hash) < cfg.daily_roasts_per_session ∧
      usage_sum du today ("ip:" ++ ip_hash) < cfg.daily_roasts_per_ip ∧
      usage_sum_date du today < cfg.daily_roasts_global) := by
  refine ⟨fun h1 => ?_, fun h1 h2 => ?_, fun h1 h2 h3 => ?_, ?_⟩
  · simp [check_rate_limit, h1]
  · simp [check_rate_limit, not_le.mpr h1, h2]
  · simp [check_rate_limit, not_le.mpr h1, not_le.mpr h2, h3]
  · simp only [check_rate_limit]
    by_cases h1 : cfg.daily_roasts_per_session ≤
        usage_sum du today ("session:" ++ sess.getD ip_hash)
    · simp [h1, not_lt.mpr h1]
    · by_cases h2 : cfg.daily_roasts_per_ip ≤ usage_sum du today ("ip:" ++ ip_hash)
      · simp [h1, h2, lt_of_not_le h1, not_lt.mpr h2]
      · by_cases h3 : cfg.daily_roasts_global ≤ usage_sum_date du today
        · simp [h1, h2, h3, lt_of_not_le h1, lt_of_not_le h2, not_lt.mpr h3]
        · simp [h1, h2, h3, lt_of_not_le h1, lt_of_not_le h2, lt_of_not_le h3]

/-- C2 witness: one session at its limit of 2 is denied with the session
message even though the IP and global tiers are far below their limits. -/
theorem check_rate_limit_tiers_session_first :
    check_rate_limit { daily_roasts_per_session := 2 }
        [⟨7, "session:s1", 2⟩, ⟨7, "ip:aaaa", 2⟩] 7 (some "s1") "aaaa" 3 =
      (false, session_deny_msg 2 21) :=
  (check_rate_limit_tiers { daily_roasts_per_session := 2 }
      [⟨7, "session:s1", 2⟩, ⟨7, "ip:aaaa", 2⟩] 7 (some "s1") "aaaa" 3).1 (by decide)

/-- C10: with no `session_id` in the session store, `check_rate_limit`,
`record_usage` and `get_remaining_roasts` all substitute the same IP hash as
the session identity, and the `session:`/`ip:` prefixes keep the two counter
namespaces disjoint. -/
theorem session_fallback_consistent (cfg : AppConfig) (du : DailyUsage) (today : Int)
    (ip_hash : String) (hour : Int) :
    check_rate_limit cfg du today none ip_hash hour =
      check_rate_limit cfg du today (some ip_hash) ip_hash hour ∧
    record_usage du today none ip_hash = record_usage du today (some ip_hash) ip_hash ∧
    get_remaining_roasts cfg du today none ip_hash =
      get_remaining_roasts cfg du today (some ip_hash) ip_hash ∧
    (∀ x y : String, "session:" ++ x ≠ "ip:" ++ y) :=
  ⟨rfl, rfl, rfl, session_ne_ip_identity⟩

/-- C10 witness: a concrete session-less request records into the same
session-tagged row that the check and the remaining-roast display read. -/
theorem session_fallback_consistent_ex :
    record_usage [] 7 none "beef" = record_usage [] 7 (some "beef") "beef" ∧
    get_remaining_roasts {} (record_usage [] 7 none "beef") 7 none "beef" = 9 :=
  ⟨(session_fallback_consistent {} [] 7 "beef" 0).2.1, by decide⟩

theorem usage_sum_upsert_same (du : DailyUsage) (d : Int) (i : String) :
    usage_sum (upsert_usage du d i) d i = usage_sum du d i + 1 := by
  induction du with
  | nil => simp [upsert_usage, usage_sum]
  | cons r rest ih =>
      by_cases h : r.date = d ∧ r.identity = i
      · simp [upsert_usage, usage_sum, h]
        ring
      · simp only [upsert_usage, if_neg h, usage_sum, ih]
        ring

theorem usage_sum_upsert_other (du : DailyUsage) (d d' : Int) (i i' : String)
    (h : ¬(d' = d ∧ i' = i)) :
    usage_sum (upsert_usage du d' i') d i = usage_sum du d i := by
  induction du with
  | nil =>
      simp only [upsert_usage, usage_sum]
      simp [h]
  | cons r rest ih =>
      by_cases hr : r.date = d' ∧ r.identity = i'
      · have : ¬(r.date = d ∧ r.identity = i) := by
          rintro ⟨hd, hi⟩
          exact h ⟨hr.1 ▸ hd, hr.2 ▸ hi⟩
        simp [upsert_usage, usage_sum, hr, this, h]
      · simp [upsert_usage, usage_sum, hr, ih]

theorem usage_sum_record_usage_session (du : DailyUsage) (today : Int)
    (sess : Option String) (ip_hash : String) :
    usage_sum (record_usage du today sess ip_hash) today ("session:" ++ sess.getD ip_hash) =
      usage_sum du today ("session:" ++ sess.getD ip_hash) + 1 := by
  unfold record_usage
  rw [usage_sum_upsert_other _ _ _ _ _
      (by rintro ⟨-, hi⟩; exact session_ne_ip_identity _ _ hi.symm),
    usage_sum_upsert_same]

theorem usage_sum_iterate_record_usage (n : Nat) (du : DailyUsage) (today : Int)
    (sess : Option String) (ip_hash : String) :
    usage_sum (iterate_record_usage n du today sess ip_hash) today
        ("session:" ++ sess.getD ip_hash) =
      usage_sum du today ("session:" ++ sess.getD ip_hash) + n := by
  induction n generalizing du with
  | zero => simp [iterate_record_usage]
  | succ k ih =>
      simp only [iterate_record_usage, ih, usage_sum_record_usage_session]
      push_cast
      ring

/-- C7: `get_remaining_roasts` equals `max 0 (limit - session_count_today)`,
so it is never negative; a fresh session identity gets the full configured
limit, and after N `record_usage` calls it reads `max 0 (limit - N)`. -/
theorem get_remaining_roasts_spec (cfg : AppConfig) (du : DailyUsage) (today : Int)
    (sess : Option String) (ip_hash : String) (n : Nat) :
    0 ≤ get_remaining_roasts cfg du today sess ip_hash ∧
    get_remaining_roasts cfg du today sess ip_hash =
      max 0 (cfg.daily_roasts_per_session -
        usage_sum du today ("session:" ++ sess.getD ip_hash)) ∧
    (usage_sum du today ("session:" ++ sess.getD ip_hash) = 0 →
      0 ≤ cfg.daily_roasts_per_session →
      get_remaining_roasts cfg du today sess ip_hash = cfg.daily_roasts_per_session) ∧
    (usage_sum du today ("session:" ++ sess.getD ip_hash) = 0 →
      get_remaining_roasts cfg (iterate_record_usage n du today sess ip_hash) today
          sess ip_hash =
        max 0 (cfg.daily_roasts_per_session - n)) := by
  refine ⟨le_max_left _ _, rfl, fun h0 hL => ?_, fun h0 => ?_⟩
  · simp [get_remaining_roasts, h0, hL]
  · simp [get_remaining_roasts, usage_sum_iterate_record_usage, h0]

/-- C7 witness: with the default limit of 10, a fresh session shows 10
remaining, and after 12 recorded roasts the display clamps at 0. -/
theorem get_remaining_roasts_spec_ex :
    get_remaining_roasts {} [] 7 (some "s1") "aaaa" = 10 ∧
    get_remaining_roasts {} (iterate_record_usage 12 [] 7 (some "s1") "aaaa") 7
        (some "s1") "aaaa" = max 0 (10 - (12 : Nat)) :=
  ⟨(get_remaining_roasts_spec {} [] 7 (some "s1") "aaaa" 12).2.2.1 (by decide) (by decide),
   (get_remaining_roasts_spec {} [] 7 (some "s1") "aaaa" 12).2.2.2 (by decide)⟩

/-- C8: `prune_old_usage` keeps exactly the rows dated on or after
`today - days_to_keep`, deleting exactly the strictly older rows and leaving
the kept rows (their order and contents) unchanged. -/
theorem prune_old_usage_spec (du : DailyUsage) (today : Int) (days_to_keep : Int) :
    prune_old_usage du today days_to_keep =
      du.filter (fun r => decide (today - days_to_keep ≤ r.date)) ∧
    ∀ r : UsageRow, r ∈ prune_old_usage du today days_to_keep ↔
      r ∈ du ∧ ¬(r.date < today - days_to_keep) := by
  constructor
  · unfold prune_old_usage
    exact List.filter_congr fun a _ => by simp [← decide_not, not_lt]
  · intro r
    unfold prune_old_usage
    simp [List.mem_filter]

/-- C8 witness: pruning with `days_to_keep = 1` at day 5 deletes the day-3 row
and keeps the day-4 and day-5 rows untouched. -/
theorem prune_old_usage_spec_ex :
    prune_old_usage [⟨5, "a", 1⟩, ⟨3, "b", 2⟩, ⟨4, "c", 3⟩] 5 1 =
      [⟨5, "a", 1⟩, ⟨4, "c", 3⟩] ∧
    (⟨3, "b", 2⟩ ∈ prune_old_usage [⟨5, "a", 1⟩, ⟨3, "b", 2⟩, ⟨4, "c", 3⟩] 5 1 ↔
      ⟨3, "b", 2⟩ ∈ ([⟨5, "a", 1⟩, ⟨3, "b", 2⟩, ⟨4, "c", 3⟩] : DailyUsage) ∧
        ¬((3 : Int) < 5 - 1)) :=
  ⟨by decide, (prune_old_usage_spec [⟨5, "a", 1⟩, ⟨3, "b", 2⟩, ⟨4, "c", 3⟩] 5 1).2 ⟨3, "b", 2⟩⟩

theorem get_month_spend_foldl (cs : List Int) (mb : MonthlyBudget) (m : String) :
    get_month_spend (cs.foldl (fun acc c => record_cost acc m c) mb) m =
      get_month_spend mb m + cs.sum := by
  induction cs generalizing mb with
  | nil => simp
  | cons c rest ih =>
      simp only [List.foldl_cons, ih, get_month_spend_record, List.sum_cons]
      ring

theorem get_month_roast_count_foldl (cs : List Int) (mb : MonthlyBudget) (m : String) :
    get_month_roast_count (cs.foldl (fun acc c => record_cost acc m c) mb) m =
      get_month_roast_count mb m + cs.length := by
  induction cs generalizing mb with
  | nil => simp
  | cons c rest ih =>
      simp only [List.foldl_cons, ih, get_month_roast_count_record, List.length_cons]
      push_cast
      ring

theorem get_month_spend_of_absent (mb : MonthlyBudget) (m : String)
    (h : ∀ r ∈ mb, r.month ≠ m) : get_month_spend mb m = 0 := by
  induction mb with
  | nil => rfl
  | cons r rest ih =>
      simp only [get_month_spend, if_neg (h r (List.mem_cons_self r rest))]
      exact ih fun x hx => h x (List.mem_cons_of_mem r hx)

theorem get_month_roast_count_of_absent (mb : MonthlyBudget) (m : String)
    (h : ∀ r ∈ mb, r.month ≠ m) : get_month_roast_count mb m = 0 := by
  induction mb with
  | nil => rfl
  | cons r rest ih =>
      simp only [get_month_roast_count, if_neg (h r (List.mem_cons_self r rest))]
      exact ih fun x hx => h x (List.mem_cons_of_mem r hx)

/-- C4: starting from a ledger with no row for the month, any sequence of
`record_cost` calls leaves `month_spend` at exactly the sum of the recorded
costs and `month_roast_count` at their number, and any permutation of the
same sequence yields the same spend (the upsert accumulates commutatively). -/
theorem record_cost_fold_spec (mb : MonthlyBudget) (m : String) (cs : List Int)
    (h : ∀ r ∈ mb, r.month ≠ m) :
    get_month_spend (cs.foldl (fun acc c => record_cost acc m c) mb) m = cs.sum ∧
    get_month_roast_count (cs.foldl (fun acc c => record_cost acc m c) mb) m =
      cs.length ∧
    (∀ cs' : List Int, cs.Perm cs' →
      get_month_spend (cs'.foldl (fun acc c => record_cost acc m c) mb) m =
        get_month_spend (cs.foldl (fun acc c => record_cost acc m c) mb) m) := by
  refine ⟨?_, ?_, fun cs' hp => ?_⟩
  · rw [get_month_spend_foldl, get_month_spend_of_absent mb m h, zero_add]
  · rw [get_month_roast_count_foldl, get_month_roast_count_of_absent mb m h, zero_add]
  · rw [get_month_spend_foldl, get_month_spend_foldl, hp.sum_eq]

/-- C4 witness: recording 3, 1, 2 cents into a fresh month gives spend 6 and
count 3, and the reversed order 2, 1, 3 gives the same spend. -/
theorem record_cost_fold_spec_ex :
    get_month_spend ([3, 1, 2].foldl (fun acc c => record_cost acc "2026-10" c) []) "2026-10"
      = [3, 1, 2].sum ∧
    get_month_roast_count
        ([3, 1, 2].foldl (fun acc c => record_cost acc "2026-10" c) []) "2026-10"
      = ([3, 1, 2] : List Int).length ∧
    get_month_spend ([2, 1, 3].foldl (fun acc c => record_cost acc "2026-10" c) []) "2026-10"
      = get_month_spend
          ([3, 1, 2].foldl (fun acc c => record_cost acc "2026-10" c) []) "2026-10" :=
  ⟨(record_cost_fold_spec [] "2026-10" [3, 1, 2] (by simp)).1,
   (record_cost_fold_spec [] "2026-10" [3, 1, 2] (by simp)).2.1,
   (record_cost_fold_spec [] "2026-10" [3, 1, 2] (by simp)).2.2 [2, 1, 3] (by decide)⟩

/-- C9: `get_ip_hash` is a pure function of the trusted-proxy count and the
network data of the request (same inputs, same output), and returns exactly the
first 16 characters of the SHA-256 hex digest of the resolved address: entry
`max(0, chain_length - trusted_proxies)` of the forwarded chain (an in-range
index) when the proxy count is positive and a chain is present, the direct
peer address otherwise. -/
theorem get_ip_hash_spec (sha256_hex : String → String) (trusted_proxies : Int)
    (r1 r2 : IpRequest) :
    (r1.access_route = r2.access_route → r1.remote_addr = r2.remote_addr →
      get_ip_hash sha256_hex trusted_proxies r1 = get_ip_hash sha256_hex trusted_proxies r2) ∧
    get_ip_hash sha256_hex trusted_proxies r1 =
      (sha256_hex (resolve_client_ip trusted_proxies r1)).take 16 ∧
    (0 < trusted_proxies → r1.access_route ≠ [] →
      resolve_client_ip trusted_proxies r1 =
        r1.access_route.getD
          (max 0 ((r1.access_route.length : Int) - trusted_proxies)).toNat "127.0.0.1" ∧
      (max 0 ((r1.access_route.length : Int) - trusted_proxies)).toNat <
        r1.access_route.length) ∧
    (¬(0 < trusted_proxies ∧ r1.access_route ≠ []) →
      resolve_client_ip trusted_proxies r1 = r1.remote_addr.getD "127.0.0.1") := by
  refine ⟨fun h1 h2 => ?_, rfl, fun htp hne => ⟨?_, ?_⟩, fun hn => ?_⟩
  · cases r1
    cases r2
    simp only at h1 h2
    rw [h1, h2]
  · simp [resolve_client_ip, htp, hne]
  · have hlen : 0 < r1.access_route.length := List.length_pos.mpr hne
    omega
  · simp only [resolve_client_ip, if_neg hn]

/-- C9 witness: with one trusted proxy and the forwarded chain
`[client, proxy]`, the resolved address is the chain entry at index
`max(0, 2 - 1) = 1`, which is in range, and the hash is the 16-character
truncation of its digest. -/
theorem get_ip_hash_spec_ex :
    resolve_client_ip 1 ⟨["10.0.0.9", "172.16.0.1"], some "9.9.9.9"⟩ =
      (["10.0.0.9", "172.16.0.1"].getD
        (max 0 (((["10.0.0.9", "172.16.0.1"] : List String).length : Int) - 1)).toNat
        "127.0.0.1") ∧
    (max 0 (((["10.0.0.9", "172.16.0.1"] : List String).length : Int) - 1)).toNat <
      (["10.0.0.9", "172.16.0.1"] : List String).length :=
  (get_ip_hash_spec (fun s => s) 1 ⟨["10.0.0.9", "172.16.0.1"], some "9.9.9.9"⟩
      ⟨["10.0.0.9", "172.16.0.1"], some "9.9.9.9"⟩).2.2.1 (by decide) (by decide)

/-- C3: `submit_roast` applies kill switch, input validation, budget check and
rate-limit check in that fixed order, stopping at the first failure with that
own message of that check and an unchanged state; the model call happens exactly
when all four gates pass. -/
theorem submit_roast_gate_order (cfg : AppConfig) (st : AppState) (req : RoastRequest)
    (ip_hash month : String) (today hour : Int)
    (model_call : Except String RoastResult) (share_id : String) :
    (cfg.enable_roasting ≠ "true" →
      submit_roast cfg st req ip_hash month today hour model_call share_id =
        some (.killSwitch offline_msg, st, [])) ∧
    (cfg.enable_roasting = "true" → (validate_input cfg req.code).1 = false →
      submit_roast cfg st req ip_hash month today hour model_call share_id =
        some (.invalidInput (validate_input cfg req.code).2, st, [])) ∧
    (cfg.enable_roasting = "true" → (validate_input cfg req.code).1 = true →
      ∀ msg, check_budget cfg st.monthly_budget month = some (false, msg) →
      submit_roast cfg st req ip_hash month today hour model_call share_id =
        some (.budgetDenied msg, st, [])) ∧
    (cfg.enable_roasting = "true" → (validate_input cfg req.code).1 = true →
      (check_budget cfg st.monthly_budget month).map Prod.fst = some true →
      ∀ msg, check_rate_limit cfg st.daily_usage today req.sess ip_hash hour = (false, msg) →
      submit_roast cfg st req ip_hash month today hour model_call share_id =
        some (.rateLimited msg, st, [])) ∧
    (Effect.modelCall ∈
        out_effects (submit_roast cfg st req ip_hash month today hour model_call share_id) ↔
      cfg.enable_roasting = "true" ∧ (validate_input cfg req.code).1 = true ∧
      (check_budget cfg st.monthly_budget month).map Prod.fst = some true ∧
      (check_rate_limit cfg st.daily_usage today req.sess ip_hash hour).1 = true) := by
  by_cases hk : cfg.enable_roasting = "true"
  case neg =>
    simp [submit_roast, hk, out_effects]
  case pos =>
    rcases hval : validate_input cfg req.code with ⟨vb, vm⟩
    cases vb
    case false =>
      simp [submit_roast, hk, hval, out_effects]
    case true =>
      rcases hb : check_budget cfg st.monthly_budget month with - | ⟨bb, bm⟩
      case none =>
        simp [submit_roast, hk, hval, hb, out_effects]
      case some =>
        cases bb
        case false =>
          simp [submit_roast, hk, hval, hb, out_effects]
        case true =>
          rcases hr : check_rate_limit cfg st.daily_usage today req.sess ip_hash hour
            with ⟨rb, rm⟩
          cases rb
          case false =>
            simp [submit_roast, hk, hval, hb, hr, out_effects]
          case true =>
            cases model_call with
            | error e =>
                simp [submit_roast, hk, hval, hb, hr, out_effects]
            | ok res =>
                by_cases hc : 0 < res.cost_cents <;>
                  simp [submit_roast, hk, hval, hb, hr, hc, out_effects]

/-- C3 witness: with the kill switch set to a non-true value the handler
aborts with the offline message, an untouched state and no external effects. -/
theorem submit_roast_gate_order_ex :
    submit_roast { enable_roasting := "false" } ⟨[], [], []⟩
        ⟨"print 1", "roast", "normal", false, some "s"⟩ "aaaa" "2026-10" 7 3
        (.error "boom") "SID" =
      some (.killSwitch offline_msg, ⟨[], [], []⟩, []) :=
  (submit_roast_gate_order { enable_roasting := "false" } ⟨[], [], []⟩
      ⟨"print 1", "roast", "normal", false, some "s"⟩ "aaaa" "2026-10" 7 3
      (.error "boom") "SID").1 (by decide)

/-- C5: once all four gates pass, a failed model call leaves the state exactly
as it was and yields the generic retry-later message, while a successful call
appends the log row, runs `record_cost` precisely when the actual cost is
positive, and runs `record_usage` unconditionally. -/
theorem submit_roast_model_effects (cfg : AppConfig) (st : AppState) (req : RoastRequest)
    (ip_hash month : String) (today hour : Int) (share_id : String)
    (hk : cfg.enable_roasting = "true")
    (hv : (validate_input cfg req.code).1 = true)
    (hb : (check_budget cfg st.monthly_budget month).map Prod.fst = some true)
    (hr : (check_rate_limit cfg st.daily_usage today req.sess ip_hash hour).1 = true) :
    (∀ e : String,
      submit_roast cfg st req ip_hash month today hour (.error e) share_id =
        some (.modelFailed model_fail_msg, st, [.modelCall])) ∧
    (∀ res : RoastResult,
      submit_roast cfg st req ip_hash month today hour (.ok res) share_id =
        some (.success share_id,
          { monthly_budget :=
              if 0 < res.cost_cents then record_cost st.monthly_budget month res.cost_cents
              else st.monthly_budget,
            daily_usage := record_usage st.daily_usage today req.sess ip_hash,
            roast_log := st.roast_log ++
              [mk_log_row req ip_hash (normalize_mode req.mode)
                (normalize_severity req.severity) res share_id] },
          [.modelCall, .insertLog] ++
            (if 0 < res.cost_cents then [.recordCost res.cost_cents] else []) ++
            [.recordUsage])) ∧
    (∀ res : RoastResult,
      (Effect.recordCost res.cost_cents ∈ out_effects
          (submit_roast cfg st req ip_hash month today hour (.ok res) share_id) ↔
        0 < res.cost_cents) ∧
      Effect.recordUsage ∈ out_effects
        (submit_roast cfg st req ip_hash month today hour (.ok res) share_id)) := by
  rcases hval : validate_input cfg req.code with ⟨vb, vm⟩
  rw [hval] at hv
  change vb = true at hv
  subst hv
  rcases hbm : check_budget cfg st.monthly_budget month with - | ⟨bb, bm⟩
  · rw [hbm] at hb
    simp at hb
  · rw [hbm] at hb
    replace hb : bb = true := by simpa using hb
    subst hb
    rcases hrm : check_rate_limit cfg st.daily_usage today req.sess ip_hash hour
      with ⟨rb, rm⟩
    rw [hrm] at hr
    change rb = true at hr
    subst hr
    refine ⟨fun e => ?_, fun res => ?_, fun res => ?_⟩
    · simp [submit_roast, hk, hval, hbm, hrm]
    · by_cases hc : 0 < res.cost_cents <;>
        simp [submit_roast, hk, hval, hbm, hrm, hc]
    · by_cases hc : 0 < res.cost_cents <;>
        simp [submit_roast, hk, hval, hbm, hrm, hc, out_effects]

/-- C5 witness: with default configuration, empty state and a valid request, a
failing model call returns the retry message with no state change; a
successful zero-cost call records usage but not cost. -/
theorem submit_roast_model_effects_ex :
    submit_roast {} ⟨[], [], []⟩ ⟨"print 1", "roast", "normal", false, some "s"⟩
        "aaaa" "2026-10" 7 3 (.error "boom") "SID" =
      some (.modelFailed model_fail_msg, ⟨[], [], []⟩, [.modelCall]) ∧
    (Effect.recordCost (0 : Int) ∈ out_effects
        (submit_roast {} ⟨[], [], []⟩ ⟨"print 1", "roast", "normal", false, some "s"⟩
          "aaaa" "2026-10" 7 3 (.ok ⟨"r", 10, 20, 0, "haiku", "python", some 50⟩) "SID") ↔
      (0 : Int) < 0) ∧
    Effect.recordUsage ∈ out_effects
      (submit_roast {} ⟨[], [], []⟩ ⟨"print 1", "roast", "normal", false, some "s"⟩
        "aaaa" "2026-10" 7 3 (.ok ⟨"r", 10, 20, 0, "haiku", "python", some 50⟩) "SID") :=
  ⟨(submit_roast_model_effects {} ⟨[], [], []⟩
      ⟨"print 1", "roast", "normal", false, some "s"⟩ "aaaa" "2026-10" 7 3 "SID"
      (by decide) (by decide) (by decide) (by decide)).1 "boom",
   ((submit_roast_model_effects {} ⟨[], [], []⟩
      ⟨"print 1", "roast", "normal", false, some "s"⟩ "aaaa" "2026-10" 7 3 "SID"
      (by decide) (by decide) (by decide) (by decide)).2.2
      ⟨"r", 10, 20, 0, "haiku", "python", some 50⟩).1,
   ((submit_roast_model_effects {} ⟨[], [], []⟩
      ⟨"print 1", "roast", "normal", false, some "s"⟩ "aaaa" "2026-10" 7 3 "SID"
      (by decide) (by decide) (by decide) (by decide)).2.2
      ⟨"r", 10, 20, 0, "haiku", "python", some 50⟩).2⟩
